import Mathlib

/-!
Shallow embedding of the core of the `solana-transaction-bundler` repository
(crates `bundler-types`, `bundler-config`, `bundler-core`), covering the fee
controller (`fees.rs`), the security validator (`simulation.rs`), the endpoint
pool (`rpc.rs`) and the bundle orchestrator's aggregation loop (`bundler.rs`).

Machine integers (`u64`, `u32`, `u8`, `usize`) are modelled as `Nat`; none of
the embedded computations can overflow in the source's value ranges, and Rust's
`saturating_sub` coincides with truncated `Nat` subtraction.  Public keys,
signatures and slots are modelled as `Nat`; URLs, log lines and error messages
as `String`.  Fallible Rust functions returning `BundlerResult<T>` become
`Except BundlerError T`.
-/

/-- Error taxonomy of `bundler-types/src/lib.rs` (`BundlerError`), carrying the
formatted message.  Interpolated details (indices, counts) are dropped from the
message text; only the error kind and the fact that a message exists matter to
the embedded claims. -/
inductive BundlerError
  | Config (msg : String)
  | Rpc (msg : String)
  | Signing (msg : String)
  | Simulation (msg : String)
  | Transaction (msg : String)
  | Timeout (msg : String)
  | InvalidInput (msg : String)
  | Internal (msg : String)
deriving DecidableEq, Repr

deriving instance DecidableEq for Except

/-- `FeeStrategy` from `bundler-types/src/lib.rs`. -/
structure FeeStrategy where
  base_fee_lamports : Nat
  priority_fee_lamports : Nat
  compute_unit_price_micro_lamports : Nat
  max_price_lamports : Nat
  base_percentile : Nat
  buffer_percent : Nat
  adaptive : Bool
  enable_bump : Bool
  max_bump_attempts : Nat
deriving DecidableEq, Repr

/-- `impl Default for FeeStrategy` from `bundler-types/src/lib.rs`. -/
def FeeStrategy.defaultStrategy : FeeStrategy :=
  { base_fee_lamports := 5000
    priority_fee_lamports := 1000
    compute_unit_price_micro_lamports := 1000
    max_price_lamports := 100000
    base_percentile := 75
    buffer_percent := 20
    adaptive := true
    enable_bump := true
    max_bump_attempts := 3 }

/-- `FeeManager::calculate_percentile_fee` from `bundler-core/src/fees.rs`
(lines 99-112).  The Rust code computes
`((len as f64 * percentile as f64 / 100.0) as usize).saturating_sub(1).min(len-1)`.
The `as usize` cast truncates toward zero; because `len * percentile / 100` as
exact rationals is at distance at least `1/100` from any integer it does not
hit, and the `f64` rounding error of the product and quotient is far below
`1/100` for all representable inputs, the cast equals the `Nat` floor division
`len * percentile / 100`.  `saturating_sub 1` is `Nat` subtraction.
`sort_unstable` on numbers is modelled by `insertionSort (le)`. -/
def calculate_percentile_fee (s : FeeStrategy) (fees : List Nat) :
    Except BundlerError Nat :=
  if fees.isEmpty then .ok 1
  else
    let sorted_fees := List.insertionSort (fun a b => a ≤ b) fees
    let percentile_index :=
      min (sorted_fees.length * s.base_percentile / 100 - 1) (sorted_fees.length - 1)
    .ok (sorted_fees.getD percentile_index 0)

/-- `FeeManager::apply_buffer` from `bundler-core/src/fees.rs` (lines 143-146):
`(fee as f64 * (1.0 + buffer_percent/100.0)) as Lamports`, modelled by the
exact rational floor `fee * (100 + buffer_percent) / 100`. -/
def apply_buffer (s : FeeStrategy) (fee : Nat) : Nat :=
  fee * (100 + s.buffer_percent) / 100

/-- `FeeManager::calculate_fee` from `bundler-core/src/fees.rs` (lines 60-96).
The RPC fetch of recent prioritization fees is passed in as `recent_fees`.
`apply_adaptive_adjustments` (lines 115-140) multiplies the base fee by a
factor derived from an `f64` linear regression over the shared fee history;
that stateful floating-point computation is abstracted as the function
parameter `adjust`, applied exactly where the source applies it (only when
`strategy.adaptive` is set).  The side effect `record_fee_calculation` does not
influence the returned value and is omitted. -/
def calculate_fee (s : FeeStrategy) (recent_fees : List Nat)
    (adjust : Nat → Nat) : Except BundlerError Nat :=
  if recent_fees.isEmpty then .ok 1
  else
    match calculate_percentile_fee s recent_fees with
    | .error e => .error e
    | .ok base_fee =>
      let adjusted_fee := if s.adaptive then adjust base_fee else base_fee
      let buffered_fee := apply_buffer s adjusted_fee
      .ok (min buffered_fee s.max_price_lamports)

/-- `FeeManager::bump_fee` from `bundler-core/src/fees.rs` (lines 255-279).
`1.5_f64.powi(attempt)` equals `3 ^ attempt / 2 ^ attempt` exactly in `f64`
for every attempt count reachable here (exact while `3 ^ attempt < 2 ^ 53`),
and the final `as Lamports` cast floors, so the bumped fee is the exact
rational floor `original * 3 ^ attempt / 2 ^ attempt`. -/
def bump_fee (s : FeeStrategy) (original_fee : Nat) (attempt : Nat) :
    Except BundlerError Nat :=
  if !s.enable_bump then .ok original_fee
  else if s.max_bump_attempts < attempt then
    .error (.Transaction "Maximum fee bump attempts exceeded")
  else
    let bumped_fee := original_fee * 3 ^ attempt / 2 ^ attempt
    .ok (min bumped_fee s.max_price_lamports)

/-- `AccountMeta` from `bundler-types` / `solana_sdk::instruction::AccountMeta`;
public keys are modelled as `Nat`. -/
structure AccountMeta where
  pubkey : Nat
  is_signer : Bool
  is_writable : Bool
deriving DecidableEq, Repr

/-- `solana_sdk::instruction::Instruction`: program id, account metas, raw data
bytes (modelled as `Nat`s). -/
structure Instruction where
  program_id : Nat
  accounts : List AccountMeta
  data : List Nat
deriving DecidableEq, Repr

/-- `SecurityConfig` from `bundler-config/src/lib.rs` (lines 61-89). -/
structure SecurityConfig where
  max_compute_units : Nat
  max_fee_lamports : Nat
  program_whitelist : List Nat
  validate_instructions : Bool
  max_bundle_size : Nat
  require_simulation : Bool
  max_writable_accounts : Nat
deriving DecidableEq, Repr

/-- The `for (i, instruction) in instructions.iter().enumerate()` loop of
`TransactionSimulator::validate_instructions`: return a `Simulation` error at
the first instruction whose program id is not in the whitelist. -/
def check_whitelist (whitelist : List Nat) : List Instruction → Except BundlerError Unit
  | [] => .ok ()
  | ix :: rest =>
    if whitelist.contains ix.program_id then check_whitelist whitelist rest
    else .error (.Simulation "Program is not whitelisted")

/-- `TransactionSimulator::validate_instructions` from
`bundler-core/src/simulation.rs` (lines 45-79): if the `validate_instructions`
flag is off, accept; else reject bundles larger than `max_bundle_size`; else if
the whitelist is empty, accept; else reject the first non-whitelisted program.
The source contains no further checks. -/
def validate_instructions (cfg : SecurityConfig) (instructions : List Instruction) :
    Except BundlerError Unit :=
  if !cfg.validate_instructions then .ok ()
  else if cfg.max_bundle_size < instructions.length then
    .error (.Simulation "Bundle has too many instructions")
  else if cfg.program_whitelist.isEmpty then .ok ()
  else check_whitelist cfg.program_whitelist instructions

/-- Number of writable accounts of one instruction (the quantity the
`security.max_writable_accounts` limit is documented to bound). -/
def writable_count (ix : Instruction) : Nat :=
  (ix.accounts.filter (fun a => a.is_writable)).length

/-- `RpcEndpoint` from `bundler-types/src/lib.rs` (lines 26-38). -/
structure RpcEndpoint where
  url : String
  weight : Nat
  supports_jito : Bool
  auth_token : Option String
deriving DecidableEq, Repr

/-- `EndpointHealth` from `bundler-core/src/rpc.rs` (lines 30-36); timestamps
are modelled as `Nat` instants. -/
structure EndpointHealth where
  healthy : Bool
  last_success : Option Nat
  last_failure : Option Nat
  consecutive_failures : Nat
  average_latency_ms : Option Nat
deriving DecidableEq, Repr

/-- `impl Default for EndpointHealth`. -/
def EndpointHealth.defaultHealth : EndpointHealth :=
  { healthy := true
    last_success := none
    last_failure := none
    consecutive_failures := 0
    average_latency_ms := none }

/-- The filter predicate of `get_best_endpoint`:
`health_status.get(url).map(|h| h.healthy).unwrap_or(true)`.  The
`HashMap<String, EndpointHealth>` is modelled as an association list. -/
def endpoint_is_healthy (hm : List (String × EndpointHealth)) (e : RpcEndpoint) : Bool :=
  ((hm.lookup e.url).map (fun h => h.healthy)).getD true

/-- One step of Rust `Iterator::max_by_key(|e| e.weight)`: keep the running
maximum, preferring the LATER element on ties (as `max_by_key` documents). -/
def max_step (acc : Option RpcEndpoint) (e : RpcEndpoint) : Option RpcEndpoint :=
  match acc with
  | none => some e
  | some m => if m.weight ≤ e.weight then some e else some m

/-- Rust `Iterator::max_by_key(|e| e.weight)`: the maximum by weight, returning
the LAST maximal element, `None` on an empty iterator. -/
def max_by_weight (l : List RpcEndpoint) : Option RpcEndpoint :=
  l.foldl max_step none

/-- Descending weight comparison used by
`healthy_endpoints.sort_by(|a, b| b.weight.cmp(&a.weight))`. -/
def weight_ge (a b : RpcEndpoint) : Prop := b.weight ≤ a.weight

instance : DecidableRel weight_ge := fun a b =>
  inferInstanceAs (Decidable (b.weight ≤ a.weight))

instance : IsTotal RpcEndpoint weight_ge :=
  ⟨fun a b => (Nat.le_total a.weight b.weight).symm⟩

instance : IsTrans RpcEndpoint weight_ge :=
  ⟨fun _ _ _ hab hbc => Nat.le_trans hbc hab⟩

/-- Rust's `slice::sort_by` is a stable sort; `List.insertionSort` is stable in
the same sense, so it models the descending sort of `get_best_endpoint`. -/
def sort_by_weight_desc (l : List RpcEndpoint) : List RpcEndpoint :=
  List.insertionSort weight_ge l

/-- `SolanaRpcClient::get_best_endpoint` from `bundler-core/src/rpc.rs`
(lines 100-126): filter the healthy endpoints; if none remain, fall back to
the highest-weight endpoint overall (error only when no endpoint is
configured); otherwise stably sort the healthy ones by descending weight and
take the first.  The source indexes `healthy_endpoints[0]` after the
`is_empty` check; the unreachable `[]` branch reuses the same error. -/
def get_best_endpoint (endpoints : List RpcEndpoint)
    (hm : List (String × EndpointHealth)) : Except BundlerError RpcEndpoint :=
  let healthy_endpoints := endpoints.filter (endpoint_is_healthy hm)
  if healthy_endpoints.isEmpty then
    match max_by_weight endpoints with
    | some e => .ok e
    | none => .error (.Rpc "No RPC endpoints configured")
  else
    match sort_by_weight_desc healthy_endpoints with
    | best :: _ => .ok best
    | [] => .error (.Rpc "No RPC endpoints configured")

/-- `SolanaRpcClient::record_success` from `bundler-core/src/rpc.rs`
(lines 284-298), as the pure update of one `EndpointHealth` record (the body of
the `get_mut` branch); `now` stands for `Utc::now()`. -/
def record_success (h : EndpointHealth) (now latency_ms : Nat) : EndpointHealth :=
  { h with
    healthy := true
    last_success := some now
    consecutive_failures := 0
    average_latency_ms :=
      some ((h.average_latency_ms.map (fun avg => (avg + latency_ms) / 2)).getD latency_ms) }

/-- `SolanaRpcClient::record_failure` from `bundler-core/src/rpc.rs`
(lines 301-314), as the pure update of one `EndpointHealth` record. -/
def record_failure (h : EndpointHealth) (now : Nat) : EndpointHealth :=
  let cf := h.consecutive_failures + 1
  { h with
    last_failure := some now
    consecutive_failures := cf
    healthy := if 3 ≤ cf then false else h.healthy }

/-- `TransactionStatus` from `bundler-types/src/lib.rs`. -/
inductive TransactionStatus
  | pending
  | processed
  | confirmed
  | finalized
  | failed
deriving DecidableEq, Repr

/-- `BundleStatus` from `bundler-types/src/lib.rs`. -/
inductive BundleStatus
  | processing
  | success
  | failed
  | timeout
  | rejected
deriving DecidableEq, Repr

/-- `TransactionResult` from `bundler-types/src/lib.rs`; signatures are
modelled as `Nat`. -/
structure TransactionResult where
  signature : Option Nat
  status : TransactionStatus
  compute_units_consumed : Option Nat
  fee_paid_lamports : Option Nat
  logs : List String
  error : Option String
deriving DecidableEq, Repr

/-- Outcome of `TransactionBundler::process_single_transaction` for one
transaction: `Ok((TransactionResult, Option<slot>, blockhash_string))` or an
error (carrying `e.to_string()`, which is all the aggregation loop uses). -/
abbrev TxOutcome : Type := Except String (TransactionResult × Option Nat × String)

/-- Whether a per-transaction outcome is the `Ok` branch. -/
def outcome_is_ok : TxOutcome → Bool
  | .ok _ => true
  | .error _ => false

/-- The failed `TransactionResult` built in the `Err(e)` arm of the
`process_bundle` loop (`bundler.rs` lines 121-128). -/
def failed_result (msg : String) : TransactionResult :=
  { signature := none
    status := .failed
    compute_units_consumed := none
    fee_paid_lamports := none
    logs := []
    error := some msg }

/-- The `TransactionResult` a given outcome contributes to the response:
its own result when `Ok`, the synthesized `failed_result` when `Err`. -/
def outcome_result : TxOutcome → TransactionResult
  | .ok (r, _, _) => r
  | .error e => failed_result e

/-- The mutable aggregation state of the `process_bundle` loop
(`bundler.rs` lines 74-84): accumulated results, overall status, bundle
signature / slot / blockhash. -/
structure LoopState where
  results : List TransactionResult
  overall_status : BundleStatus
  bundle_signature : Option Nat
  bundle_slot : Option Nat
  bundle_blockhash : Option String
deriving DecidableEq, Repr

/-- Initial aggregation state of `process_bundle`. -/
def initState : LoopState :=
  { results := []
    overall_status := .success
    bundle_signature := none
    bundle_slot := none
    bundle_blockhash := none }

/-- The `Ok((result, slot, blockhash))` arm of the `process_bundle` loop
(`bundler.rs` lines 104-116): bundle signature / slot are overwritten whenever
the result carries one, the blockhash is always overwritten, the result is
appended. -/
def apply_ok (st : LoopState) (result : TransactionResult) (slot : Option Nat)
    (blockhash : String) : LoopState :=
  { st with
    bundle_signature :=
      match result.signature with
      | some sig => some sig
      | none => st.bundle_signature
    bundle_slot :=
      match slot with
      | some v => some v
      | none => st.bundle_slot
    bundle_blockhash := some blockhash
    results := st.results ++ [result] }

/-- The `Err(e)` arm of the `process_bundle` loop (`bundler.rs` lines
117-139, before the atomic test): append a `failed_result`, mark the bundle
failed. -/
def apply_err (st : LoopState) (e : String) : LoopState :=
  { st with
    results := st.results ++ [failed_result e]
    overall_status := .failed }

/-- The `for (i, transaction) in transactions ...` loop of
`TransactionBundler::process_bundle` (`bundler.rs` lines 87-141), with the
per-transaction processing abstracted into the `outcomes` list.  In atomic
mode an `Err` outcome breaks out of the loop. -/
def process_loop (atomic : Bool) : List TxOutcome → LoopState → LoopState
  | [], st => st
  | (Except.ok (result, slot, blockhash)) :: rest, st =>
    process_loop atomic rest (apply_ok st result slot blockhash)
  | (Except.error e) :: rest, st =>
    if atomic then apply_err st e else process_loop atomic rest (apply_err st e)

/-- The post-loop fix-up of `process_bundle` (`bundler.rs` lines 145-151): a
`Success` overall status is demoted to `Failed` when some result has `Failed`
status. -/
def bundle_finalize (st : LoopState) : LoopState :=
  if st.overall_status = .success
      ∧ st.results.any (fun r => r.status == .failed) then
    { st with overall_status := .failed }
  else st

/-- `TransactionBundler::process_bundle` result aggregation: run the loop from
the initial state, then apply the post-loop status fix-up. -/
def process_bundle (atomic : Bool) (outcomes : List TxOutcome) : LoopState :=
  bundle_finalize (process_loop atomic outcomes initState)

/-! ### Concrete instances used by counterexamples and witnesses -/

/-- Default strategy with a low price ceiling, for the bump counterexample. -/
def s_c4 : FeeStrategy := { FeeStrategy.defaultStrategy with max_price_lamports := 100 }

/-- Default strategy with a zero bump budget. -/
def s_c5 : FeeStrategy := { FeeStrategy.defaultStrategy with max_bump_attempts := 0 }

/-- Default strategy with a zero price ceiling. -/
def s_c7 : FeeStrategy := { FeeStrategy.defaultStrategy with max_price_lamports := 0 }

/-- A security policy with validation enabled, an empty whitelist, and a
writable-account limit of one. -/
def cfg_c3 : SecurityConfig :=
  { max_compute_units := 1400000
    max_fee_lamports := 100000
    program_whitelist := []
    validate_instructions := true
    max_bundle_size := 5
    require_simulation := true
    max_writable_accounts := 1 }

/-- An instruction with two writable accounts. -/
def ix_c3 : Instruction :=
  { program_id := 42
    accounts :=
      [ { pubkey := 1, is_signer := false, is_writable := true }
      , { pubkey := 2, is_signer := false, is_writable := true } ]
    data := [] }

/-- A security policy with validation DISABLED, a non-empty whitelist and a
zero bundle-size limit (both of which the instruction below violates). -/
def cfg_c10 : SecurityConfig :=
  { max_compute_units := 1400000
    max_fee_lamports := 100000
    program_whitelist := [7]
    validate_instructions := false
    max_bundle_size := 0
    require_simulation := true
    max_writable_accounts := 64 }

/-- An instruction whose program id 9 is outside the whitelist `[7]`. -/
def ix_c10 : Instruction := { program_id := 9, accounts := [], data := [] }

/-- A successfully confirmed transaction result with signature 1. -/
def tx_r1 : TransactionResult :=
  { signature := some 1
    status := .confirmed
    compute_units_consumed := none
    fee_paid_lamports := none
    logs := []
    error := none }

/-- A successfully confirmed transaction result with signature 2. -/
def tx_r2 : TransactionResult :=
  { signature := some 2
    status := .confirmed
    compute_units_consumed := none
    fee_paid_lamports := none
    logs := []
    error := none }

/-- Outcome: first transaction processed successfully. -/
def out_ok1 : TxOutcome := Except.ok (tx_r1, none, "hash1")

/-- Outcome: second transaction processed successfully. -/
def out_ok2 : TxOutcome := Except.ok (tx_r2, none, "hash2")

/-- Two successful transactions with distinct signatures. -/
def outcomes_c1 : List TxOutcome := [out_ok1, out_ok2]

/-- A light endpoint. -/
def ep_a : RpcEndpoint :=
  { url := "a", weight := 10, supports_jito := false, auth_token := none }

/-- A heavy endpoint. -/
def ep_b : RpcEndpoint :=
  { url := "b", weight := 100, supports_jito := false, auth_token := none }

/-- Health map marking the heavy endpoint `ep_b` unhealthy. -/
def hm_c6 : List (String × EndpointHealth) :=
  [("b", { EndpointHealth.defaultHealth with
             healthy := false, consecutive_failures := 3 })]

/-! ### Helper lemmas -/

/-- Dividing `x * 3 ^ k` by `2 ^ k` never drops below `x`. -/
lemma le_mul_pow_div (x k : Nat) : x ≤ x * 3 ^ k / 2 ^ k := by
  have h2 : 0 < 2 ^ k := Nat.pos_pow_of_pos k (by norm_num)
  rw [Nat.le_div_iff_mul_le h2]
  exact Nat.mul_le_mul_left x (Nat.pow_le_pow_left (by norm_num) k)

/-- A non-empty fee list always yields an `ok` percentile fee. -/
lemma percentile_fee_ok (s : FeeStrategy) (f : Nat) (fs : List Nat) :
    ∃ v, calculate_percentile_fee s (f :: fs) = .ok v := by
  unfold calculate_percentile_fee
  simp only [List.isEmpty_cons, Bool.false_eq_true, if_false]
  exact ⟨_, rfl⟩

/-- The post-loop fix-up never changes the results list. -/
lemma bundle_finalize_results (st : LoopState) :
    (bundle_finalize st).results = st.results := by
  unfold bundle_finalize
  split <;> rfl

/-- The post-loop fix-up never changes the bundle signature. -/
lemma bundle_finalize_sig (st : LoopState) :
    (bundle_finalize st).bundle_signature = st.bundle_signature := by
  unfold bundle_finalize
  split <;> rfl

/-- If the loop ends with `failed` overall status, so does the finalized
state. -/
lemma bundle_finalize_status_failed (st : LoopState)
    (h : st.overall_status = .failed) :
    (bundle_finalize st).overall_status = .failed := by
  unfold bundle_finalize
  split
  · rfl
  · exact h

/-- Loop invariant: the tracked bundle signature always equals the last
signature carried by the accumulated results. -/
lemma process_loop_sig_invariant (atomic : Bool) (outcomes : List TxOutcome) :
    ∀ st : LoopState,
      st.bundle_signature = (st.results.filterMap (fun r => r.signature)).getLast? →
      (process_loop atomic outcomes st).bundle_signature
        = ((process_loop atomic outcomes st).results.filterMap
            (fun r => r.signature)).getLast? := by
  induction outcomes with
  | nil => intro st h; exact h
  | cons o rest ih =>
    intro st h
    cases o with
    | ok triple =>
      obtain ⟨result, slot, blockhash⟩ := triple
      simp only [process_loop]
      apply ih
      cases hsig : result.signature with
      | none =>
        simp [apply_ok, hsig, List.filterMap_append, h]
      | some s =>
        simp [apply_ok, hsig, List.filterMap_append]
    | error e =>
      have h1 : (apply_err st e).bundle_signature
          = ((apply_err st e).results.filterMap (fun r => r.signature)).getLast? := by
        simp [apply_err, List.filterMap_append, failed_result, h]
      cases atomic with
      | true => simpa [process_loop] using h1
      | false =>
        simp only [process_loop, Bool.false_eq_true, if_false]
        exact ih _ h1

/-- The atomic loop stops at the first `Err` outcome: with an all-`Ok` prefix
`pre`, it appends exactly the `pre` results and one synthesized failure, and
marks the bundle failed, ignoring everything after the error. -/
lemma process_loop_atomic_error (e : String) (post : List TxOutcome) :
    ∀ (pre : List TxOutcome) (st : LoopState),
      (∀ o ∈ pre, outcome_is_ok o = true) →
      (process_loop true (pre ++ Except.error e :: post) st).results
          = st.results ++ pre.map outcome_result ++ [failed_result e]
        ∧ (process_loop true (pre ++ Except.error e :: post) st).overall_status
          = .failed := by
  intro pre
  induction pre with
  | nil =>
    intro st _
    constructor
    · simp [process_loop, apply_err]
    · simp [process_loop, apply_err]
  | cons o pre' ih =>
    intro st hok
    have ho := hok o (List.mem_cons_self _ _)
    cases o with
    | error e2 => simp [outcome_is_ok] at ho
    | ok triple =>
      obtain ⟨r, slot, bh⟩ := triple
      have h' := ih (apply_ok st r slot bh)
        (fun o2 ho2 => hok o2 (List.mem_cons_of_mem _ ho2))
      simp only [List.cons_append, process_loop, List.append_eq]
      constructor
      · rw [h'.1]
        simp [apply_ok, outcome_result, List.append_assoc]
      · exact h'.2

/-- Step lemma for `max_by_weight`: folding from `some m` yields an element of
`m :: l` whose weight dominates `m` and every element of `l`. -/
lemma foldl_max_step (l : List RpcEndpoint) :
    ∀ m : RpcEndpoint,
      ∃ e, List.foldl max_step (some m) l = some e
        ∧ (e = m ∨ e ∈ l) ∧ m.weight ≤ e.weight ∧ ∀ f ∈ l, f.weight ≤ e.weight := by
  induction l with
  | nil =>
    intro m
    exact ⟨m, rfl, Or.inl rfl, Nat.le_refl _, by simp⟩
  | cons a l' ih =>
    intro m
    by_cases hw : m.weight ≤ a.weight
    · obtain ⟨e, he, hmem, hge, hall⟩ := ih a
      refine ⟨e, ?_, ?_, Nat.le_trans hw hge, ?_⟩
      · simpa [max_step, hw] using he
      · rcases hmem with rfl | hmem
        · exact Or.inr (List.mem_cons_self _ _)
        · exact Or.inr (List.mem_cons_of_mem _ hmem)
      · intro f hf
        rcases List.mem_cons.mp hf with rfl | hf'
        · exact hge
        · exact hall f hf'
    · obtain ⟨e, he, hmem, hge, hall⟩ := ih m
      refine ⟨e, ?_, ?_, hge, ?_⟩
      · simpa [max_step, hw] using he
      · rcases hmem with rfl | hmem
        · exact Or.inl rfl
        · exact Or.inr (List.mem_cons_of_mem _ hmem)
      · intro f hf
        rcases List.mem_cons.mp hf with rfl | hf'
        · exact Nat.le_trans (Nat.le_of_lt (Nat.lt_of_not_le hw)) hge
        · exact hall f hf'

/-- `max_by_weight` on a non-empty list returns an element of maximal weight. -/
lemma max_by_weight_spec (l : List RpcEndpoint) (hne : l ≠ []) :
    ∃ e, max_by_weight l = some e ∧ e ∈ l ∧ ∀ f ∈ l, f.weight ≤ e.weight := by
  cases l with
  | nil => exact absurd rfl hne
  | cons a l' =>
    obtain ⟨e, he, hmem, hge, hall⟩ := foldl_max_step l' a
    refine ⟨e, ?_, ?_, ?_⟩
    · simpa [max_by_weight, max_step] using he
    · rcases hmem with rfl | hmem
      · exact List.mem_cons_self _ _
      · exact List.mem_cons_of_mem _ hmem
    · intro f hf
      rcases List.mem_cons.mp hf with rfl | hf'
      · exact hge
      · exact hall f hf'

/-- Head of the stable descending sort of a non-empty list: a member whose
weight dominates the whole list. -/
lemma sort_desc_head_max (l : List RpcEndpoint) (hne : l ≠ []) :
    ∃ best rest, sort_by_weight_desc l = best :: rest
      ∧ best ∈ l ∧ ∀ f ∈ l, f.weight ≤ best.weight := by
  have hperm : List.Perm (sort_by_weight_desc l) l := List.perm_insertionSort weight_ge l
  have hsorted : List.Sorted weight_ge (sort_by_weight_desc l) :=
    List.sorted_insertionSort weight_ge l
  cases hs : sort_by_weight_desc l with
  | nil =>
    rw [hs] at hperm
    exact absurd (List.Perm.symm hperm).eq_nil hne
  | cons best rest =>
    rw [hs] at hperm hsorted
    have hmem : best ∈ l := hperm.mem_iff.mp (List.mem_cons_self _ _)
    have hrest := (List.sorted_cons.mp hsorted).1
    refine ⟨best, rest, rfl, hmem, ?_⟩
    intro f hf
    rcases List.mem_cons.mp (hperm.mem_iff.mpr hf) with rfl | hf'
    · exact Nat.le_refl _
    · exact hrest f hf'

/-! ### Claim theorems -/

/-- Claim C1, counterexample: with two successfully processed transactions
carrying signatures 1 and 2, the first successful result (in input order) has
signature 1, but the response's bundle signature is 2 — the code overwrites
the bundle signature on every success, so it ends as the LAST one, refuting
the claim that it equals the FIRST successful transaction's signature. -/
theorem bundle_signature_not_first :
    ((process_bundle false outcomes_c1).results.find?
        (fun r => r.status != TransactionStatus.failed)) = some tx_r1
    ∧ tx_r1.signature = some 1
    ∧ (process_bundle false outcomes_c1).bundle_signature = some 2
    ∧ (some 2 : Option Nat) ≠ some 1 := by
  decide

/-- Claim C1, amended: the BundleResponse's bundle_signature equals the
signature of the LAST transaction result that carries a signature (signatures
are attached exactly to the transactions whose processing returned Ok); if no
result carries a signature, the bundle signature is absent.  Holds in both
atomic and best-effort mode. -/
theorem bundle_signature_is_last_signature (atomic : Bool) (outcomes : List TxOutcome) :
    (process_bundle atomic outcomes).bundle_signature
      = ((process_bundle atomic outcomes).results.filterMap
          (fun r => r.signature)).getLast? := by
  unfold process_bundle
  rw [bundle_finalize_sig, bundle_finalize_results]
  exact process_loop_sig_invariant atomic outcomes initState rfl

/-- Claim C2: the code computes the percentile index with a truncating
(`floor`) cast, not the ceiling of the claim and of the repository's own unit
test `test_percentile_fee_calculation`.  At the test's input
`[100, 200, 300, 400, 500]` with the default percentile 75, the code yields
`sorted[2] = 300`, whereas the claimed index `⌈5·75/100⌉ − 1 = 3` selects
`400` (the value the unit test asserts). -/
theorem percentile_fee_floor_vs_ceil :
    calculate_percentile_fee FeeStrategy.defaultStrategy [100, 200, 300, 400, 500]
        = .ok 300
    ∧ (List.insertionSort (fun a b => a ≤ b) [100, 200, 300, 400, 500]).getD
        ((5 * 75 + 99) / 100 - 1) 0 = 400
    ∧ (300 : Nat) ≠ 400 := by
  decide

/-- Claim C3: `validate_instructions` never consults
`security.max_writable_accounts`.  Under a policy with validation enabled, an
empty whitelist and a writable-account limit of 1, an instruction with two
writable accounts passes validation with `Ok(())` instead of the claimed
`Simulation` error. -/
theorem validate_ignores_writable_limit :
    cfg_c3.validate_instructions = true
    ∧ cfg_c3.max_writable_accounts < writable_count ix_c3
    ∧ validate_instructions cfg_c3 [ix_c3] = .ok () := by
  decide

/-- Claim C4, counterexample: with bumping enabled, attempt 1 of at most 3,
and an original fee 101 above the ceiling 100, `bump_fee` returns 100 < 101,
refuting the claim that the result is always at least the original fee. -/
theorem bump_fee_can_shrink :
    s_c4.enable_bump = true
    ∧ 1 ≤ s_c4.max_bump_attempts
    ∧ bump_fee s_c4 101 1 = .ok 100
    ∧ 100 < 101 := by
  decide

/-- Claim C4, amended: if bumping is enabled, the attempt number is within the
budget, AND the original fee does not already exceed `max_price_lamports`,
then `bump_fee` succeeds with a result between the original fee and the
ceiling. -/
theorem bump_fee_bounds (s : FeeStrategy) (x k : Nat)
    (hb : s.enable_bump = true) (hk : k ≤ s.max_bump_attempts)
    (hx : x ≤ s.max_price_lamports) :
    ∃ r, bump_fee s x k = .ok r ∧ x ≤ r ∧ r ≤ s.max_price_lamports := by
  have hnot : ¬ s.max_bump_attempts < k := Nat.not_lt.mpr hk
  refine ⟨min (x * 3 ^ k / 2 ^ k) s.max_price_lamports, ?_,
    le_min (le_mul_pow_div x k) hx, Nat.min_le_right _ _⟩
  simp [bump_fee, hb, hnot]

/-- Witness for the amended C4 theorem at the default strategy, fee 10,
attempt 2. -/
theorem bump_fee_bounds_witness :
    ∃ r, bump_fee FeeStrategy.defaultStrategy 10 2 = .ok r
      ∧ 10 ≤ r ∧ r ≤ FeeStrategy.defaultStrategy.max_price_lamports :=
  bump_fee_bounds FeeStrategy.defaultStrategy 10 2 rfl (by decide) (by decide)

/-- Claim C5, counterexample: with `max_bump_attempts = 0` (bumping enabled),
the call `bump_fee(5, 0)` SUCCEEDS with the original fee — `attempt = 0` is
not greater than the budget — refuting the claim that every bump call fails
(a disabled-bump call also returns `Ok`). -/
theorem bump_zero_budget_can_succeed :
    s_c5.max_bump_attempts = 0 ∧ bump_fee s_c5 5 0 = .ok 5 := by
  decide

/-- Claim C5, amended: with bumping enabled and `max_bump_attempts = 0`,
every bump call with attempt number at least 1 fails with a `Transaction`
error. -/
theorem bump_zero_budget_fails (s : FeeStrategy) (x k : Nat)
    (hb : s.enable_bump = true) (h0 : s.max_bump_attempts = 0) (hk : 1 ≤ k) :
    bump_fee s x k = .error (.Transaction "Maximum fee bump attempts exceeded") := by
  have hlt : s.max_bump_attempts < k := by omega
  simp [bump_fee, hb, hlt]

/-- Witness for the amended C5 theorem at attempt 1. -/
theorem bump_zero_budget_fails_witness :
    bump_fee s_c5 5 1 = .error (.Transaction "Maximum fee bump attempts exceeded") :=
  bump_zero_budget_fails s_c5 5 1 rfl rfl (by decide)

/-- Claim C6, counterexample: with an empty endpoint pool, `get_best_endpoint`
returns an `Rpc` error, refuting the claim that it never fails. -/
theorem get_best_endpoint_empty_pool_fails :
    get_best_endpoint [] [] = .error (.Rpc "No RPC endpoints configured") := by
  decide

/-- Claim C6, amended: whenever at least one endpoint is configured,
`get_best_endpoint` succeeds; the returned endpoint is a highest-weight
endpoint of the whole pool when no endpoint is healthy, and a highest-weight
healthy endpoint otherwise. -/
theorem get_best_endpoint_total (endpoints : List RpcEndpoint)
    (hm : List (String × EndpointHealth)) (hne : endpoints ≠ []) :
    ∃ e, get_best_endpoint endpoints hm = .ok e
      ∧ ((endpoints.filter (endpoint_is_healthy hm) = []
            ∧ e ∈ endpoints ∧ ∀ f ∈ endpoints, f.weight ≤ e.weight)
         ∨ (e ∈ endpoints.filter (endpoint_is_healthy hm)
            ∧ ∀ f ∈ endpoints.filter (endpoint_is_healthy hm),
                f.weight ≤ e.weight)) := by
  by_cases hh : endpoints.filter (endpoint_is_healthy hm) = []
  · obtain ⟨e, he, hmem, hall⟩ := max_by_weight_spec endpoints hne
    refine ⟨e, ?_, Or.inl ⟨hh, hmem, hall⟩⟩
    unfold get_best_endpoint
    simp [hh, he]
  · obtain ⟨best, rest, hs, hmem, hall⟩ := sort_desc_head_max _ hh
    refine ⟨best, ?_, Or.inr ⟨hmem, hall⟩⟩
    have hee : (endpoints.filter (endpoint_is_healthy hm)).isEmpty = false := by
      cases hfe : endpoints.filter (endpoint_is_healthy hm) with
      | nil => exact absurd hfe hh
      | cons a l => rfl
    unfold get_best_endpoint
    simp [hee, hs]

/-- Witness for the amended C6 theorem: a two-endpoint pool in which the
heavier endpoint is unhealthy, so the lighter healthy endpoint is picked. -/
theorem get_best_endpoint_total_witness :
    ∃ e, get_best_endpoint [ep_a, ep_b] hm_c6 = .ok e
      ∧ (([ep_a, ep_b].filter (endpoint_is_healthy hm_c6) = []
            ∧ e ∈ [ep_a, ep_b] ∧ ∀ f ∈ [ep_a, ep_b], f.weight ≤ e.weight)
         ∨ (e ∈ [ep_a, ep_b].filter (endpoint_is_healthy hm_c6)
            ∧ ∀ f ∈ [ep_a, ep_b].filter (endpoint_is_healthy hm_c6),
                f.weight ≤ e.weight)) :=
  get_best_endpoint_total [ep_a, ep_b] hm_c6 (by decide)

/-- Claim C7, counterexample: with a zero price ceiling and an empty
recent-fees list, `calculate_fee` returns 1, which exceeds
`max_price_lamports = 0` — the empty-list short-circuit skips the ceiling
clamp, refuting the unconditional claim. -/
theorem calculate_fee_empty_exceeds_zero_ceiling :
    calculate_fee s_c7 [] (fun b => b) = .ok 1
    ∧ ¬ (1 ≤ s_c7.max_price_lamports) := by
  decide

/-- Claim C7, amended: provided the ceiling is at least 1, every call to
`calculate_fee` (for every recent-fee list and every adaptive adjustment
function) succeeds with a value at most `max_price_lamports`, and the result
on an empty recent-fees list is 1 regardless of the adaptive flag. -/
theorem calculate_fee_le_ceiling (s : FeeStrategy) (fees : List Nat)
    (adjust : Nat → Nat) (hmax : 1 ≤ s.max_price_lamports) :
    ∃ r, calculate_fee s fees adjust = .ok r
      ∧ r ≤ s.max_price_lamports ∧ (fees = [] → r = 1) := by
  cases fees with
  | nil =>
    refine ⟨1, ?_, hmax, fun _ => rfl⟩
    simp [calculate_fee]
  | cons f fs =>
    obtain ⟨v, hv⟩ := percentile_fee_ok s f fs
    refine ⟨min (apply_buffer s (if s.adaptive then adjust v else v))
        s.max_price_lamports, ?_, Nat.min_le_right _ _, by simp⟩
    simp [calculate_fee, hv]

/-- Witness for the amended C7 theorem at the default strategy with two
recent fees and the identity adjustment. -/
theorem calculate_fee_le_ceiling_witness :
    ∃ r, calculate_fee FeeStrategy.defaultStrategy [5, 10] (fun b => b) = .ok r
      ∧ r ≤ FeeStrategy.defaultStrategy.max_price_lamports
      ∧ ([5, 10] = ([] : List Nat) → r = 1) :=
  calculate_fee_le_ceiling FeeStrategy.defaultStrategy [5, 10] (fun b => b) (by decide)

/-- Claim C8: recording a success sets the endpoint healthy and clears the
consecutive-failure count; recording a failure increments the count and
flips health to false exactly when the new count reaches 3 (the third or any
later consecutive failure), leaving it unchanged otherwise. -/
theorem endpoint_health_recording (h : EndpointHealth) (now latency_ms : Nat) :
    (record_success h now latency_ms).healthy = true
    ∧ (record_success h now latency_ms).consecutive_failures = 0
    ∧ (record_failure h now).consecutive_failures = h.consecutive_failures + 1
    ∧ (record_failure h now).healthy
        = (if 3 ≤ h.consecutive_failures + 1 then false else h.healthy) :=
  ⟨rfl, rfl, rfl, rfl⟩

/-- Claim C9: in atomic mode, with every outcome before the first failing
transaction being `Ok`, processing stops at that failure: the response's
result list is exactly the results of the preceding transactions followed by
the synthesized failed result (which is thus its last element, with nothing
for any subsequent transaction), and the overall status is `failed`. -/
theorem atomic_short_circuit (pre post : List TxOutcome) (e : String)
    (hok : ∀ o ∈ pre, outcome_is_ok o = true) :
    (process_bundle true (pre ++ Except.error e :: post)).results
        = pre.map outcome_result ++ [failed_result e]
      ∧ (process_bundle true (pre ++ Except.error e :: post)).overall_status
        = .failed := by
  have h := process_loop_atomic_error e post pre initState hok
  constructor
  · unfold process_bundle
    rw [bundle_finalize_results]
    simpa [initState] using h.1
  · unfold process_bundle
    exact bundle_finalize_status_failed _ h.2

/-- Witness for C9: one successful transaction, then a failure, then one more
outcome that must not appear in the response. -/
theorem atomic_short_circuit_witness :
    (process_bundle true ([out_ok1] ++ Except.error "boom" :: [out_ok2])).results
        = [out_ok1].map outcome_result ++ [failed_result "boom"]
      ∧ (process_bundle true ([out_ok1] ++ Except.error "boom" :: [out_ok2])).overall_status
        = .failed :=
  atomic_short_circuit [out_ok1] [out_ok2] "boom" (by decide)

/-- Claim C10: when the security configuration's `validate_instructions` flag
is false, `validate_instructions` accepts every instruction list — neither
the bundle-size limit nor the allow-list is consulted. -/
theorem validate_disabled_allows_all (cfg : SecurityConfig)
    (instrs : List Instruction) (h : cfg.validate_instructions = false) :
    validate_instructions cfg instrs = .ok () := by
  simp [validate_instructions, h]

/-- Witness for C10: the disabled policy accepts an instruction list that
violates both the bundle-size limit (1 > 0) and the whitelist (9 ∉ [7]). -/
theorem validate_disabled_allows_all_witness :
    validate_instructions cfg_c10 [ix_c10] = .ok () :=
  validate_disabled_allows_all cfg_c10 [ix_c10] rfl
